import Mathlib

/-!
Verification of the PDF editor front-end (upload / preview / edit / export panels
and the API helper module) against its natural-language specification.

The TypeScript source is shallowly embedded: JavaScript numbers are modelled as
rationals (the arithmetic in the claims involves only exact decimal fractions),
JavaScript optional / nullable values as `Option`, and the JavaScript truthiness
tests that the code performs on strings are modelled explicitly (`jsTruthy`,
`jsStringOr`).  Event handlers are modelled as pure functions from their inputs
to an outcome record that lists the HTTP request they dispatch (if any), the
notification they raise, and the file handle they leave behind.
-/

/-- JavaScript truthiness of a nullable string: `null`/`undefined` and the
empty string are falsy, every other string is truthy.  Models guards such as
`if (!file.fileId)` and `if (file.fileId && !previewUrl)`. -/
def jsTruthy : Option String → Bool
  | none => false
  | some s => !(s == "")

/-- JavaScript `x || d` for a nullable string `x` and a string default `d`:
the fallback is taken when `x` is null/undefined or the empty string.
Models `error.response.data?.message || 'An error occurred'` and
`error.message || 'An unexpected error occurred'`. -/
def jsStringOr : Option String → String → String
  | none, d => d
  | some s, d => if s == "" then d else s

/-- A positioned text overlay as held in the edit panel's local state
(`PDFFile.edits.textOverlays` in `PDFEditPanel.tsx`). -/
structure TextOverlay where
  page : Int
  x : ℚ
  y : ℚ
  text : String
  fontSize : ℚ
  color : String
deriving DecidableEq, Repr

/-- A find/replace instruction as held in the edit panel's local state
(`PDFFile.edits.textReplacements` in `PDFEditPanel.tsx`). -/
structure TextReplacement where
  page : Int
  original : String
  replacement : String
deriving DecidableEq, Repr

/-- The `edits` record of a file handle; both lists are optional in the
TypeScript interface. -/
structure PDFEdits where
  textOverlays : Option (List TextOverlay)
  textReplacements : Option (List TextReplacement)
deriving DecidableEq, Repr

/-- The client-side file handle (`PDFFile` interface).  The raw `File` object
is represented by its name; the metadata record is not needed by any claim and
is omitted. -/
structure PDFFile where
  fileName : String
  url : String
  fileId : Option String
  edits : Option PDFEdits
deriving DecidableEq, Repr

/-- The `action` tag of an edit entry in the backend edit request
(`PDFEditRequest` in `api/pdf.ts`). -/
inductive EditAction where
  | add_text
  | add_image
  | add_annotation
  | remove_element
deriving DecidableEq, Repr

/-- One entry of the `edits` array posted to the backend
(`PDFEditRequest.edits` element in `api/pdf.ts`). -/
structure EditEntry where
  pageNumber : Int
  x : ℚ
  y : ℚ
  width : ℚ
  height : ℚ
  text : Option String
  action : EditAction
deriving DecidableEq, Repr

/-- Translation of one overlay into an edit entry, as performed by
`saveEditsToBackend` (`PDFEditPanel.tsx` lines 88-96): the width and height are
the approximations `text.length * fontSize * 0.6` and `fontSize * 1.2`. -/
def overlayToEdit (overlay : TextOverlay) : EditEntry :=
  { pageNumber := overlay.page
    x := overlay.x
    y := overlay.y
    width := (overlay.text.length : ℚ) * overlay.fontSize * 0.6
    height := overlay.fontSize * 1.2
    text := some overlay.text
    action := EditAction.add_text }

/-- Translation of one text replacement into an edit entry, as performed by
`saveEditsToBackend` (`PDFEditPanel.tsx` lines 99-107): zero geometry, the
replacement text, and the `add_text` action. -/
def replacementToEdit (replacement : TextReplacement) : EditEntry :=
  { pageNumber := replacement.page
    x := 0
    y := 0
    width := 0
    height := 0
    text := some replacement.replacement
    action := EditAction.add_text }

/-- The `allEdits` array built by `saveEditsToBackend`
(`const allEdits = [...edits, ...replacementEdits]`): the mapped overlay list
(`file.edits?.textOverlays?.map(...) || []`) followed by the mapped
replacement list (`file.edits?.textReplacements?.map(...) || []`). -/
def buildAllEdits (file : PDFFile) : List EditEntry :=
  ((file.edits.bind PDFEdits.textOverlays).map (List.map overlayToEdit)).getD []
    ++ ((file.edits.bind PDFEdits.textReplacements).map (List.map replacementToEdit)).getD []

/-- The body of the POST issued to the edit endpoint. -/
structure EditApiRequest where
  fileId : String
  edits : List EditEntry
deriving DecidableEq, Repr

/-- Outcome of one invocation of the edit panel's save handler: the request it
dispatches (if any), the title of the notification it raises, and the file
handle afterwards (the handler never mutates the handle). -/
structure SaveOutcome where
  request : Option EditApiRequest
  toastTitle : String
  fileAfter : PDFFile
deriving DecidableEq, Repr

/-- The save handler `saveEditsToBackend` of `PDFEditPanel.tsx`: an absent
(falsy) `fileId` or an empty `allEdits` array returns before `pdfApi.edit` is
invoked, raising only a notification; otherwise the edit request is posted.
The success toast stands for the dispatched request having been awaited. -/
def saveEditsToBackend (file : PDFFile) : SaveOutcome :=
  if jsTruthy file.fileId = false then
    { request := none, toastTitle := "No file ID", fileAfter := file }
  else if (buildAllEdits file).isEmpty then
    { request := none, toastTitle := "No edits to save", fileAfter := file }
  else
    { request := some { fileId := file.fileId.getD "", edits := buildAllEdits file }
      toastTitle := "Edits saved successfully"
      fileAfter := file }

/-- The export panel's local format selection. -/
inductive ExportFormat where
  | pdf
  | docx
  | images
deriving DecidableEq, Repr

/-- The format field of the backend export request (`PDFExportRequest`). -/
inductive ApiExportFormat where
  | pdf
  | png
  | jpg
  | docx
deriving DecidableEq, Repr

/-- The quality field of the backend export request. -/
inductive ExportQuality where
  | low
  | medium
  | high
deriving DecidableEq, Repr

/-- The format translation performed by `handleExport` in `ExportPanel.tsx`:
`selectedFormat === 'images' ? 'png' : selectedFormat`. -/
def exportApiFormat : ExportFormat → ApiExportFormat
  | ExportFormat.images => ApiExportFormat.png
  | ExportFormat.pdf => ApiExportFormat.pdf
  | ExportFormat.docx => ApiExportFormat.docx

/-- The body of the POST issued to the export endpoint. -/
structure ExportApiRequest where
  fileId : String
  format : ApiExportFormat
  quality : ExportQuality
deriving DecidableEq, Repr

/-- Outcome of one invocation of the export panel's export handler. -/
structure ExportOutcome where
  request : Option ExportApiRequest
  toastTitle : String
  fileAfter : PDFFile
deriving DecidableEq, Repr

/-- The API-wired `handleExport` of `ExportPanel.tsx`: an absent (falsy)
`fileId` returns before the POST to the export endpoint, raising only a
notification; otherwise the export request is posted with `quality: 'high'`.
The handler never mutates the file handle. -/
def handleExport (file : PDFFile) (selectedFormat : ExportFormat) : ExportOutcome :=
  if jsTruthy file.fileId = false then
    { request := none, toastTitle := "No file ID", fileAfter := file }
  else
    { request := some
        { fileId := file.fileId.getD ""
          format := exportApiFormat selectedFormat
          quality := ExportQuality.high }
      toastTitle := "Export successful"
      fileAfter := file }

/-- A dropped browser file: its name, its MIME type (the `type` property,
renamed because `type` is reserved in Lean), and its size in bytes. -/
structure JSFile where
  name : String
  mime : String
  size : Nat
deriving DecidableEq, Repr

/-- Client-side validation outcome (`pdfUtils.validateFile` return value). -/
structure ValidationResult where
  isValid : Bool
  error : Option String
deriving DecidableEq, Repr

/-- The size ceiling of `pdfUtils.validateFile` (`const maxSize = 10 * 1024 * 1024`). -/
def validateFileMaxSize : Nat := 10 * 1024 * 1024

/-- `pdfUtils.validateFile` from `api/pdf.ts`.  The JavaScript guard
`if (!file)` cannot fire here because the embedding passes a concrete file,
matching the call site where the file was already found truthy. -/
def validateFile (file : JSFile) : ValidationResult :=
  if file.mime ≠ "application/pdf" then
    { isValid := false, error := some "Please select a PDF file" }
  else if file.size > validateFileMaxSize then
    { isValid := false, error := some "File size must be less than 10MB" }
  else
    { isValid := true, error := none }

/-- The `maxSize` option given to the dropzone of the API-wired upload panel,
annotated in the source as matching the API validation. -/
def fileUploadDropzoneMaxSize : Nat := 10 * 1024 * 1024

/-- Outcome of the API-wired `FileUpload.onDrop` handler: the file handed to
`pdfApi.upload` (if any) and the notification title raised. -/
structure DropOutcome where
  uploadRequest : Option JSFile
  toastTitle : Option String
deriving DecidableEq, Repr

/-- The API-wired `FileUpload.onDrop`: takes the first accepted file, runs
`pdfUtils.validateFile`, and only on success invokes `pdfApi.upload`.
The success toast stands for the upload having been dispatched. -/
def onDrop (acceptedFiles : List JSFile) : DropOutcome :=
  match acceptedFiles.head? with
  | none => { uploadRequest := none, toastTitle := none }
  | some file =>
    if (validateFile file).isValid = false then
      { uploadRequest := none, toastTitle := some "Invalid file" }
    else
      { uploadRequest := some file, toastTitle := some "File uploaded successfully" }

/-- The size ceiling of the legacy `FileUpload.tsx` variant
(`file.size > 50 * 1024 * 1024`). -/
def legacyMaxSize : Nat := 50 * 1024 * 1024

/-- The `maxSize` dropzone option of the legacy `FileUpload.tsx` variant. -/
def legacyDropzoneMaxSize : Nat := 50 * 1024 * 1024

/-- Outcome of the legacy `FileUpload.onDrop`: the file handed to the
container's `onFileUpload` callback (if any), the notification raised, and the
network calls performed (the legacy component imports no API module and makes
none in any branch). -/
structure LegacyDropOutcome where
  accepted : Option JSFile
  toastTitle : Option String
  networkCalls : List String
deriving DecidableEq, Repr

/-- The legacy `FileUpload.onDrop` from `FileUpload.tsx`: rejects non-PDF MIME
types, then sizes above 50 MB, otherwise hands the file to the container.  No
branch performs a network call. -/
def legacyOnDrop (acceptedFiles : List JSFile) : LegacyDropOutcome :=
  match acceptedFiles.head? with
  | none => { accepted := none, toastTitle := none, networkCalls := [] }
  | some file =>
    if file.mime ≠ "application/pdf" then
      { accepted := none, toastTitle := some "Invalid file type", networkCalls := [] }
    else if file.size > legacyMaxSize then
      { accepted := none, toastTitle := some "File too large", networkCalls := [] }
    else
      { accepted := some file, toastTitle := some "File uploaded successfully", networkCalls := [] }

/-- The `error.response` object: its optional `data?.message`, its status and
status text. -/
structure ErrorResponse where
  dataMessage : Option String
  status : Int
  statusText : String
deriving DecidableEq, Repr

/-- An error value as inspected by `handleApiError`: an optional server
response, the truthiness of `error.request`, and an optional local message. -/
structure ApiError where
  response : Option ErrorResponse
  hasRequest : Bool
  message : Option String
deriving DecidableEq, Repr

/-- The normalized error record returned by `handleApiError`. -/
structure ApiErrorInfo where
  message : String
  status : Int
  statusText : String
deriving DecidableEq, Repr

/-- `handleApiError` from `api/pdf.ts`: a server response wins, then a request
with no response, then the local error message. -/
def handleApiError (error : ApiError) : ApiErrorInfo :=
  match error.response with
  | some r =>
    { message := jsStringOr r.dataMessage "An error occurred"
      status := r.status
      statusText := r.statusText }
  | none =>
    if error.hasRequest then
      { message := "Network error - please check your connection"
        status := 0
        statusText := "No Response" }
    else
      { message := jsStringOr error.message "An unexpected error occurred"
        status := 0
        statusText := "Unknown Error" }

/-- A zoom action of the viewer toolbar. -/
inductive ZoomAction where
  | zoomInAct
  | zoomOutAct
deriving DecidableEq, Repr

/-- `zoomIn` from the viewer: `Math.min(prev + 0.2, 3.0)`. -/
def zoomIn (scale : ℚ) : ℚ := min (scale + 0.2) 3.0

/-- `zoomOut` from the viewer: `Math.max(prev - 0.2, 0.5)`. -/
def zoomOut (scale : ℚ) : ℚ := max (scale - 0.2) 0.5

/-- Apply one zoom action to the current scale. -/
def applyZoom : ZoomAction → ℚ → ℚ
  | ZoomAction.zoomInAct, s => zoomIn s
  | ZoomAction.zoomOutAct, s => zoomOut s

/-- Apply a sequence of zoom actions, left to right, to a starting scale. -/
def applyZoomSeq (acts : List ZoomAction) (scale : ℚ) : ℚ :=
  acts.foldl (fun s a => applyZoom a s) scale

/-- JavaScript `Array.prototype.filter` with an index-aware callback, the
index of the head being `n`. -/
def filterWithIndexFrom {α : Type} (p : α → Nat → Bool) : List α → Nat → List α
  | [], _ => []
  | a :: as, n => if p a n then a :: filterWithIndexFrom p as (n + 1) else filterWithIndexFrom p as (n + 1)

/-- `removeTextOverlay` from `PDFEditPanel.tsx`:
`(file.edits?.textOverlays || []).filter((_, i) => i !== index)`. -/
def removeTextOverlay (overlays : List TextOverlay) (index : Nat) : List TextOverlay :=
  filterWithIndexFrom (fun _ i => !(i == index)) overlays 0

/-- The preview-related local state of the viewer: the cached `previewUrl`
(initially null). -/
structure ViewerPreviewState where
  previewUrl : Option String
deriving DecidableEq, Repr

/-- The guard of `loadPreview` in the viewer effect:
`if (file.fileId && !previewUrl)`. -/
def loadPreviewGuard (fileId : Option String) (s : ViewerPreviewState) : Bool :=
  jsTruthy fileId && !(jsTruthy s.previewUrl)

/-- One run of the viewer's preview effect: when the guard holds, a preview
request is issued (first component `true`) and a successful fetch stores the
returned `previewUrl` in the local state. -/
def loadPreviewStep (fileId : Option String) (fetch : String → String)
    (s : ViewerPreviewState) : Bool × ViewerPreviewState :=
  if loadPreviewGuard fileId s then
    (true, { previewUrl := some (fetch (fileId.getD "")) })
  else
    (false, s)

/-- Run the preview effect `n` times in sequence (successive re-renders of a
single mount), counting the preview requests issued. -/
def runPreviewEffects (fileId : Option String) (fetch : String → String) :
    Nat → ViewerPreviewState → Nat × ViewerPreviewState
  | 0, s => (0, s)
  | n + 1, s =>
    let step := loadPreviewStep fileId fetch s
    let rest := runPreviewEffects fileId fetch n step.2
    ((if step.1 then 1 else 0) + rest.1, rest.2)

/-! ### Helper lemmas -/

/-- Pushing the option fallback through the mapped list: the code maps first
and falls back to the empty list afterwards, which agrees with falling back
first and mapping afterwards. -/
theorem optionMapGetDNil {α β : Type} (o : Option (List α)) (f : α → β) :
    (o.map (List.map f)).getD [] = (o.getD []).map f := by
  cases o <;> rfl

/-- The edits array built by the save handler is the mapped overlay list
followed by the mapped replacement list. -/
theorem buildAllEdits_eq (file : PDFFile) :
    buildAllEdits file =
      ((file.edits.bind PDFEdits.textOverlays).getD []).map overlayToEdit
        ++ ((file.edits.bind PDFEdits.textReplacements).getD []).map replacementToEdit := by
  unfold buildAllEdits
  rw [optionMapGetDNil, optionMapGetDNil]

/-- A truthy string default keeps `jsStringOr` away from the empty string. -/
theorem jsStringOr_ne_empty (o : Option String) (d : String) (hd : d ≠ "") :
    jsStringOr o d ≠ "" := by
  cases o with
  | none => exact hd
  | some s =>
    unfold jsStringOr
    by_cases hs : s = ""
    · simp [hs, hd]
    · simp [hs]

/-! ### Sample values used by the witnesses -/

/-- The overlay of the specification scenario:
page 1, position (100, 100), text "Confidential", font size 12, black. -/
def sampleOverlay : TextOverlay :=
  { page := 1, x := 100, y := 100, text := "Confidential", fontSize := 12, color := "#000000" }

/-- A sample find/replace instruction. -/
def sampleReplacement : TextReplacement :=
  { page := 2, original := "draft", replacement := "final" }

/-- A file handle carrying a backend identifier, one overlay and one
replacement. -/
def sampleFile : PDFFile :=
  { fileName := "sample.pdf"
    url := "blob:sample"
    fileId := some "abc123"
    edits := some { textOverlays := some [sampleOverlay], textReplacements := some [sampleReplacement] } }

/-! ### C1 -/

/-- C1: every text-overlay entry of the file handle's overlay list yields a
corresponding entry in the edits array built by the save operation, with
`pageNumber` the overlay page, the overlay coordinates, width
`text.length * fontSize * 0.6`, height `fontSize * 1.2`, the overlay text and
the `add_text` action. -/
theorem saveEdits_overlay_translation (file : PDFFile) (o : TextOverlay)
    (ho : o ∈ (file.edits.bind PDFEdits.textOverlays).getD []) :
    ∃ e ∈ buildAllEdits file,
      e.pageNumber = o.page ∧ e.x = o.x ∧ e.y = o.y ∧
      e.width = (o.text.length : ℚ) * o.fontSize * 0.6 ∧
      e.height = o.fontSize * 1.2 ∧
      e.text = some o.text ∧
      e.action = EditAction.add_text := by
  refine ⟨overlayToEdit o, ?_, rfl, rfl, rfl, rfl, rfl, rfl, rfl⟩
  rw [buildAllEdits_eq]
  exact List.mem_append_left _ (List.mem_map_of_mem overlayToEdit ho)

/-- Witness for C1 at the specification scenario: the overlay
{page 1, (100, 100), "Confidential", size 12} is in the sample handle's list,
and its translated entry carries width 86.4 and height 14.4. -/
theorem saveEdits_overlay_translation_witness :
    sampleOverlay ∈ (sampleFile.edits.bind PDFEdits.textOverlays).getD [] ∧
    (∃ e ∈ buildAllEdits sampleFile,
      e.pageNumber = 1 ∧ e.x = 100 ∧ e.y = 100 ∧
      e.width = 86.4 ∧ e.height = 14.4 ∧
      e.text = some "Confidential" ∧ e.action = EditAction.add_text) := by
  have hmem : sampleOverlay ∈ (sampleFile.edits.bind PDFEdits.textOverlays).getD [] := by
    simp [sampleFile]
  refine ⟨hmem, ?_⟩
  obtain ⟨e, he, h1, h2, h3, h4, h5, h6, h7⟩ :=
    saveEdits_overlay_translation sampleFile sampleOverlay hmem
  have hlen : (sampleOverlay.text.length : ℚ) = 12 := rfl
  refine ⟨e, he, ?_, ?_, ?_, ?_, ?_, ?_, h7⟩
  · rw [h1]; rfl
  · rw [h2]; rfl
  · rw [h3]; rfl
  · rw [h4, hlen]; norm_num [sampleOverlay]
  · rw [h5]; norm_num [sampleOverlay]
  · rw [h6]; rfl

/-! ### C2 -/

/-- C2: the edits array is the overlay-derived entries followed by the
replacement-derived entries, each sub-list in insertion order, and every
replacement yields an entry with zero geometry, the replacement text and the
`add_text` action. -/
theorem saveEdits_replacement_translation (file : PDFFile) :
    buildAllEdits file =
      ((file.edits.bind PDFEdits.textOverlays).getD []).map overlayToEdit
        ++ ((file.edits.bind PDFEdits.textReplacements).getD []).map replacementToEdit ∧
    ∀ r ∈ (file.edits.bind PDFEdits.textReplacements).getD [],
      replacementToEdit r ∈ buildAllEdits file ∧
      (replacementToEdit r).pageNumber = r.page ∧
      (replacementToEdit r).x = 0 ∧ (replacementToEdit r).y = 0 ∧
      (replacementToEdit r).width = 0 ∧ (replacementToEdit r).height = 0 ∧
      (replacementToEdit r).text = some r.replacement ∧
      (replacementToEdit r).action = EditAction.add_text := by
  refine ⟨buildAllEdits_eq file, ?_⟩
  intro r hr
  refine ⟨?_, rfl, rfl, rfl, rfl, rfl, rfl, rfl⟩
  rw [buildAllEdits_eq]
  exact List.mem_append_right _ (List.mem_map_of_mem replacementToEdit hr)

/-- Witness for C2 at the sample handle: its replacement appears in the built
edits array, after the overlay-derived entry, with zero geometry and the
replacement text. -/
theorem saveEdits_replacement_translation_witness :
    replacementToEdit sampleReplacement ∈ buildAllEdits sampleFile ∧
    (replacementToEdit sampleReplacement).x = 0 ∧
    (replacementToEdit sampleReplacement).text = some "final" ∧
    buildAllEdits sampleFile = [overlayToEdit sampleOverlay, replacementToEdit sampleReplacement] := by
  have h := saveEdits_replacement_translation sampleFile
  have hr := h.2 sampleReplacement (by simp [sampleFile])
  refine ⟨hr.1, hr.2.2.1, ?_, ?_⟩
  · rw [hr.2.2.2.2.2.2.1]; rfl
  · rw [h.1]; simp [sampleFile]

/-! ### C3 -/

/-- C3: a file handle without a backend identifier makes every server-side
operation unreachable: the save handler and the export handler dispatch no
request and leave the file handle unchanged, raising only the notification,
and the viewer's preview effect issues no request and leaves its state
unchanged. -/
theorem missing_fileId_blocks_server_ops (file : PDFFile) (fmt : ExportFormat)
    (fetch : String → String) (s : ViewerPreviewState) (h : file.fileId = none) :
    (saveEditsToBackend file).request = none ∧
    (saveEditsToBackend file).fileAfter = file ∧
    (saveEditsToBackend file).toastTitle = "No file ID" ∧
    (handleExport file fmt).request = none ∧
    (handleExport file fmt).fileAfter = file ∧
    (handleExport file fmt).toastTitle = "No file ID" ∧
    (loadPreviewStep file.fileId fetch s).1 = false ∧
    (loadPreviewStep file.fileId fetch s).2 = s := by
  have ht : jsTruthy file.fileId = false := by rw [h]; rfl
  have hg : loadPreviewGuard file.fileId s = false := by
    unfold loadPreviewGuard
    rw [ht]
    rfl
  unfold saveEditsToBackend handleExport loadPreviewStep
  rw [ht, hg]
  simp

/-- A file handle with no backend identifier, used by the C3 witness. -/
def noIdFile : PDFFile :=
  { fileName := "local.pdf"
    url := "blob:local"
    fileId := none
    edits := some { textOverlays := some [sampleOverlay], textReplacements := none } }

/-- Witness for C3 at a concrete identifier-less handle: no edit request, no
export request, no preview request, handle and viewer state unchanged. -/
theorem missing_fileId_blocks_server_ops_witness :
    (saveEditsToBackend noIdFile).request = none ∧
    (saveEditsToBackend noIdFile).fileAfter = noIdFile ∧
    (handleExport noIdFile ExportFormat.pdf).request = none ∧
    (loadPreviewStep noIdFile.fileId (fun _ => "url") ⟨none⟩).1 = false := by
  have h := missing_fileId_blocks_server_ops noIdFile ExportFormat.pdf
    (fun _ => "url") ⟨none⟩ rfl
  exact ⟨h.1, h.2.1, h.2.2.2.1, h.2.2.2.2.2.2.1⟩

/-! ### C4 -/

/-- C4: a file whose MIME type is not `application/pdf` is rejected before any
network call: the validator reports it invalid with an error message, and the
drop handler dispatches no upload request. -/
theorem nonPdf_rejected_before_upload (f : JSFile) (files : List JSFile)
    (hmime : f.mime ≠ "application/pdf") (hhead : files.head? = some f) :
    (validateFile f).isValid = false ∧
    (validateFile f).error = some "Please select a PDF file" ∧
    (onDrop files).uploadRequest = none := by
  have hv : validateFile f =
      { isValid := false, error := some "Please select a PDF file" } := by
    unfold validateFile
    rw [if_pos hmime]
  refine ⟨by rw [hv], by rw [hv], ?_⟩
  unfold onDrop
  rw [hhead]
  simp [hv]

/-- Witness for C4 at a concrete PNG file. -/
theorem nonPdf_rejected_before_upload_witness :
    (validateFile ⟨"photo.png", "image/png", 1024⟩).isValid = false ∧
    (validateFile ⟨"photo.png", "image/png", 1024⟩).error = some "Please select a PDF file" ∧
    (onDrop [⟨"photo.png", "image/png", 1024⟩]).uploadRequest = none :=
  nonPdf_rejected_before_upload ⟨"photo.png", "image/png", 1024⟩
    [⟨"photo.png", "image/png", 1024⟩] (by decide) rfl

/-! ### C5 -/

/-- C5: every file larger than its path's configured ceiling is rejected
before any network call.  The API-wired upload path uses the single consistent
ceiling 10 MB (validator and dropzone agree); the legacy panel variant uses
50 MB and performs no network call in any branch. -/
theorem oversize_rejected_before_upload (f : JSFile) (files : List JSFile)
    (hhead : files.head? = some f) :
    validateFileMaxSize = 10 * 1024 * 1024 ∧
    fileUploadDropzoneMaxSize = validateFileMaxSize ∧
    (f.size > validateFileMaxSize →
      (validateFile f).isValid = false ∧ (onDrop files).uploadRequest = none) ∧
    legacyMaxSize = 50 * 1024 * 1024 ∧
    legacyDropzoneMaxSize = legacyMaxSize ∧
    (f.size > legacyMaxSize →
      (legacyOnDrop files).accepted = none ∧ (legacyOnDrop files).networkCalls = []) := by
  refine ⟨rfl, rfl, ?_, rfl, rfl, ?_⟩
  · intro hsize
    have hv : (validateFile f).isValid = false := by
      unfold validateFile
      by_cases hm : f.mime ≠ "application/pdf"
      · rw [if_pos hm]
      · rw [if_neg hm, if_pos hsize]
    refine ⟨hv, ?_⟩
    unfold onDrop
    rw [hhead]
    simp [hv]
  · intro hsize
    by_cases hm : f.mime = "application/pdf"
    · simp [legacyOnDrop, hhead, hm, hsize]
    · simp [legacyOnDrop, hhead, hm]

/-- An oversize PDF (60 MB), used by the C5 witness. -/
def bigFile : JSFile := ⟨"big.pdf", "application/pdf", 60 * 1024 * 1024⟩

/-- Witness for C5 at a 60 MB PDF: rejected by the validator, no upload
request on the API-wired path, not accepted and no network call on the legacy
path. -/
theorem oversize_rejected_before_upload_witness :
    (validateFile bigFile).isValid = false ∧
    (onDrop [bigFile]).uploadRequest = none ∧
    (legacyOnDrop [bigFile]).accepted = none ∧
    (legacyOnDrop [bigFile]).networkCalls = [] := by
  have h := oversize_rejected_before_upload bigFile [bigFile] rfl
  have h1 := h.2.2.1 (by norm_num [bigFile, validateFileMaxSize])
  have h2 := h.2.2.2.2.2 (by norm_num [bigFile, legacyMaxSize])
  exact ⟨h1.1, h1.2, h2.1, h2.2⟩

/-! ### C6 -/

/-- C6: `handleApiError` normalizes every error value into exactly one of the
three shapes — (a) a server response: its status and status text with the
server message or the generic fallback, (b) a request with no response: the
fixed network-error record, (c) otherwise: the local message or the generic
fallback with status 0 — and the resulting message is never empty. -/
theorem handleApiError_shape (e : ApiError) :
    (handleApiError e).message ≠ "" ∧
    ((∃ r, e.response = some r ∧
        handleApiError e =
          { message := jsStringOr r.dataMessage "An error occurred"
            status := r.status
            statusText := r.statusText }) ∨
     (e.response = none ∧ e.hasRequest = true ∧
        handleApiError e =
          { message := "Network error - please check your connection"
            status := 0
            statusText := "No Response" }) ∨
     (e.response = none ∧ e.hasRequest = false ∧
        handleApiError e =
          { message := jsStringOr e.message "An unexpected error occurred"
            status := 0
            statusText := "Unknown Error" })) := by
  rcases e with ⟨resp, req, msg⟩
  cases resp with
  | some r =>
    refine ⟨?_, Or.inl ⟨r, rfl, rfl⟩⟩
    exact jsStringOr_ne_empty r.dataMessage "An error occurred" (by decide)
  | none =>
    cases req with
    | true =>
      refine ⟨?_, Or.inr (Or.inl ⟨rfl, rfl, rfl⟩)⟩
      show ("Network error - please check your connection" : String) ≠ ""
      decide
    | false =>
      refine ⟨?_, Or.inr (Or.inr ⟨rfl, rfl, rfl⟩)⟩
      exact jsStringOr_ne_empty msg "An unexpected error occurred" (by decide)

/-! ### C7 -/

/-- One zoom action keeps a scale inside the closed interval from 0.5 to 3.0. -/
theorem applyZoom_bounds (a : ZoomAction) (s : ℚ) (h1 : 0.5 ≤ s) (h2 : s ≤ 3.0) :
    0.5 ≤ applyZoom a s ∧ applyZoom a s ≤ 3.0 := by
  cases a with
  | zoomInAct =>
    constructor
    · exact le_min (by linarith) (by norm_num)
    · exact min_le_right _ _
  | zoomOutAct =>
    constructor
    · exact le_max_right _ _
    · exact max_le (by linarith) (by norm_num)

/-- A sequence of zoom actions keeps any scale inside the interval. -/
theorem applyZoomSeq_bounds (acts : List ZoomAction) (s : ℚ)
    (h1 : 0.5 ≤ s) (h2 : s ≤ 3.0) :
    0.5 ≤ applyZoomSeq acts s ∧ applyZoomSeq acts s ≤ 3.0 := by
  induction acts generalizing s with
  | nil => exact ⟨h1, h2⟩
  | cons a rest ih =>
    have hb := applyZoom_bounds a s h1 h2
    simpa [applyZoomSeq, List.foldl_cons] using ih (applyZoom a s) hb.1 hb.2

/-- C7: starting from the initial zoom factor 1.0, every finite sequence of
zoom-in and zoom-out actions leaves the zoom factor in the closed interval
from 0.5 to 3.0. -/
theorem zoom_bounded (acts : List ZoomAction) :
    0.5 ≤ applyZoomSeq acts 1.0 ∧ applyZoomSeq acts 1.0 ≤ 3.0 :=
  applyZoomSeq_bounds acts 1.0 (by norm_num) (by norm_num)

/-! ### C8 -/

/-- Evaluating the index-aware filter that keeps the entries whose index
differs from `idx`, starting the index count at `n`. -/
theorem filterWithIndexFrom_ne {α : Type} (idx : Nat) :
    ∀ (l : List α) (n : Nat),
      filterWithIndexFrom (fun _ i => !(i == idx)) l n =
        if idx < n then l else l.take (idx - n) ++ l.drop (idx - n + 1) := by
  intro l
  induction l with
  | nil =>
    intro n
    simp [filterWithIndexFrom]
  | cons a as ih =>
    intro n
    by_cases hn : n = idx
    · subst hn
      have h1 : ¬ n < n := Nat.lt_irrefl n
      have h2 : n < n + 1 := Nat.lt_succ_self n
      simp [filterWithIndexFrom, ih (n + 1), h1, h2, Nat.sub_self]
    · by_cases h2 : idx < n
      · have h3 : idx < n + 1 := Nat.lt_succ_of_lt h2
        simp [filterWithIndexFrom, hn, ih (n + 1), h2, h3, Ne.symm hn]
      · have h4 : n < idx := by omega
        have h5 : ¬ idx < n + 1 := by omega
        obtain ⟨k, hk⟩ : ∃ k, idx - n = k + 1 := ⟨idx - n - 1, by omega⟩
        have h6 : idx - (n + 1) = k := by omega
        simp [filterWithIndexFrom, hn, ih (n + 1), h2, h5, h6, hk,
          List.take_succ_cons, List.drop_succ_cons, Ne.symm hn]

/-- C8: removing the overlay at a valid index `i` yields a list one entry
shorter, equal to the first `i` entries followed by the entries after index
`i`, the remaining entries in their original relative order. -/
theorem removeTextOverlay_spec (overlays : List TextOverlay) (i : Nat)
    (h : i < overlays.length) :
    (removeTextOverlay overlays i).length = overlays.length - 1 ∧
    removeTextOverlay overlays i = overlays.take i ++ overlays.drop (i + 1) := by
  have he : removeTextOverlay overlays i = overlays.take i ++ overlays.drop (i + 1) := by
    have hf := filterWithIndexFrom_ne i overlays 0
    simpa [removeTextOverlay] using hf
  refine ⟨?_, he⟩
  rw [he, List.length_append, List.length_take, List.length_drop]
  omega

/-- First overlay of the C8 witness list. -/
def ovA : TextOverlay :=
  { page := 1, x := 10, y := 20, text := "Alpha", fontSize := 12, color := "#000000" }

/-- Second overlay of the C8 witness list. -/
def ovB : TextOverlay :=
  { page := 2, x := 30, y := 40, text := "Beta", fontSize := 14, color := "#ff0000" }

/-- Witness for C8: removing index 0 from a two-entry list leaves exactly the
second entry. -/
theorem removeTextOverlay_spec_witness :
    removeTextOverlay [ovA, ovB] 0 = [ovB] ∧
    (removeTextOverlay [ovA, ovB] 0).length = 1 := by
  have h := removeTextOverlay_spec [ovA, ovB] 0 (by simp)
  constructor
  · rw [h.2]; rfl
  · rw [h.1]; rfl

/-! ### C9 -/

/-- Once the cached `previewUrl` is truthy, further runs of the preview effect
issue no request and leave the state unchanged. -/
theorem runPreviewEffects_cached (fileId : Option String) (fetch : String → String)
    (n : Nat) (s : ViewerPreviewState) (h : jsTruthy s.previewUrl = true) :
    runPreviewEffects fileId fetch n s = (0, s) := by
  induction n with
  | zero => rfl
  | succ m ih =>
    have hg : loadPreviewGuard fileId s = false := by
      unfold loadPreviewGuard
      rw [h]
      simp
    simp [runPreviewEffects, loadPreviewStep, hg, ih]

/-- C9: for a file handle carrying a truthy backend identifier, any positive
number of re-runs of the preview effect from the freshly mounted state issues
exactly one preview request: the fetch is guarded on the cached `previewUrl`
being unset, and the successful fetch stores the returned (truthy) URL, so no
later run fetches again. -/
theorem preview_fetched_once (fileId : Option String) (fetch : String → String)
    (n : Nat) (hid : jsTruthy fileId = true)
    (hurl : jsTruthy (some (fetch (fileId.getD ""))) = true)
    (hn : 1 ≤ n) :
    (runPreviewEffects fileId fetch n ⟨none⟩).1 = 1 ∧
    (runPreviewEffects fileId fetch n ⟨none⟩).2 =
      ⟨some (fetch (fileId.getD ""))⟩ := by
  cases n with
  | zero => omega
  | succ m =>
    have hg : loadPreviewGuard fileId ⟨none⟩ = true := by
      unfold loadPreviewGuard
      rw [hid]
      rfl
    have hc := runPreviewEffects_cached fileId fetch m
      ⟨some (fetch (fileId.getD ""))⟩ hurl
    simp [runPreviewEffects, loadPreviewStep, hg, hc]

/-- Witness for C9: with file identifier "abc123" and a backend returning a
fixed URL, three consecutive effect runs issue exactly one request. -/
theorem preview_fetched_once_witness :
    (runPreviewEffects (some "abc123") (fun _ => "server-preview-url") 3 ⟨none⟩).1 = 1 :=
  (preview_fetched_once (some "abc123") (fun _ => "server-preview-url") 3
    (by decide) (by decide) (by omega)).1

/-! ### C10 -/

/-- C10: the validator's 10 MB ceiling is strict: a PDF file is accepted
exactly when its size is at most 10 * 1024 * 1024 bytes; in particular a file
of exactly that size passes, and only strictly larger files are rejected, with
the message reading "File size must be less than 10MB". -/
theorem validateFile_ceiling_strict (f : JSFile) (hmime : f.mime = "application/pdf") :
    ((validateFile f).isValid = true ↔ f.size ≤ 10 * 1024 * 1024) ∧
    (f.size = 10 * 1024 * 1024 → (validateFile f).isValid = true) ∧
    (10 * 1024 * 1024 < f.size →
      (validateFile f).error = some "File size must be less than 10MB") := by
  have hm : ¬ f.mime ≠ "application/pdf" := by simp [hmime]
  refine ⟨?_, ?_, ?_⟩
  · constructor
    · intro hv
      by_contra hgt
      have hs : f.size > validateFileMaxSize := by
        unfold validateFileMaxSize
        omega
      rw [validateFile, if_neg hm, if_pos hs] at hv
      exact absurd hv (by decide)
    · intro hle
      have hs : ¬ f.size > validateFileMaxSize := by
        unfold validateFileMaxSize
        omega
      rw [validateFile, if_neg hm, if_neg hs]
  · intro hs
    have hle : f.size ≤ 10 * 1024 * 1024 := le_of_eq hs
    have hns : ¬ f.size > validateFileMaxSize := by
      unfold validateFileMaxSize
      omega
    rw [validateFile, if_neg hm, if_neg hns]
  · intro hgt
    have hs : f.size > validateFileMaxSize := by
      unfold validateFileMaxSize
      omega
    rw [validateFile, if_neg hm, if_pos hs]

/-- Witness for C10: a PDF of exactly 10485760 bytes is accepted. -/
theorem validateFile_ceiling_strict_witness :
    (validateFile ⟨"exact.pdf", "application/pdf", 10485760⟩).isValid = true :=
  (validateFile_ceiling_strict ⟨"exact.pdf", "application/pdf", 10485760⟩ rfl).2.1
    (by norm_num)
